import Mathlib

/-!
Verification of the Semgrep GitHub-App scan pipeline.

This file gives a shallow embedding, in Lean 4, of the parts of the
repository that the specification talks about:

* `SemgrepService` (src/services/semgrep.ts): `getCheckRunStatus`,
  `scanDirectory`, `scanDirectoryForTextOutput`, `formatFindingsForComment`,
  `getLanguageFromPath`, `createTempDirectory`, `cleanupTempDirectory`;
* `checkAppPermissions` / `createCheckRun` (src/services/github.ts);
* the pull-request webhook handlers (src/handlers/webhooks.ts and the
  permission-gated variant of the same handler).

Pure functions of the TypeScript source become Lean functions.  Effectful
code (subprocess execution, file reads, HTTP calls) is modelled by passing
the outcome of each external operation in as data and recording the calls
the handler makes as an explicit event trace.  JavaScript exceptions become
`Except` values; a `try`/`catch` block becomes a `match` on the `Except`
produced by the guarded code.
-/

namespace SemgrepApp

/-! ## Data model: findings

Mirrors the `SemgrepFinding` interface in src/services/semgrep.ts.  The
`extra.metadata` fields not used by any code path under verification are
kept only insofar as the comment formatter reads them. -/

/-- Severity of a finding, `extra.severity` in the source. -/
inductive Severity where
  | ERROR
  | WARNING
  | INFO
deriving DecidableEq, Repr

/-- A source position, `start`/`end` in the source. -/
structure Position where
  line : Nat
  col : Nat
deriving DecidableEq, Repr

/-- The metadata block of a finding (`extra.metadata`). -/
structure Metadata where
  cwe : List String := []
  owasp : List String := []
  confidence : Option String := none
  impact : Option String := none
  likelihood : Option String := none
  shortlink : Option String := none
  source : Option String := none
deriving DecidableEq, Repr

/-- The `extra` block of a finding. -/
structure FindingExtra where
  message : String
  severity : Severity
  metadata : Option Metadata := none
deriving DecidableEq, Repr

/-- One Semgrep finding (`SemgrepFinding`). -/
structure SemgrepFinding where
  check_id : String
  path : String
  start : Position
  «end» : Position
  extra : FindingExtra
  lines : Option String := none
deriving DecidableEq, Repr

/-- The parsed scanner output (`SemgrepResult`); only the fields the
pipeline reads are modelled. -/
structure SemgrepResult where
  results : List SemgrepFinding
deriving DecidableEq, Repr

/-! ## Verdict classification (`getCheckRunStatus`) -/

/-- A check-run conclusion, the string union
`"success" | "failure" | "neutral"` in the source. -/
inductive Conclusion where
  | success
  | failure
  | neutral
deriving DecidableEq, Repr

/-- The value returned by `getCheckRunStatus`. -/
structure CheckRunStatus where
  conclusion : Conclusion
  title : String
  summary : String
deriving DecidableEq, Repr

/-- `SemgrepService.getCheckRunStatus`: derives the check-run conclusion,
title and summary from the findings by counting severities. -/
def getCheckRunStatus (findings : List SemgrepFinding) : CheckRunStatus :=
  let errorCount := (findings.filter
    (fun f => f.extra.severity == Severity.ERROR)).length
  let warningCount := (findings.filter
    (fun f => f.extra.severity == Severity.WARNING)).length
  let infoCount := (findings.filter
    (fun f => f.extra.severity == Severity.INFO)).length
  if errorCount > 0 then
    { conclusion := Conclusion.failure
      title := "Semgrep found " ++ toString errorCount ++
        " critical security issue(s)"
      summary := "🚨 **" ++ toString errorCount ++
        "** critical security issues found.\n⚠️ **" ++ toString warningCount ++
        "** warnings.\nℹ️ **" ++ toString infoCount ++
        "** informational findings." }
  else if warningCount > 0 then
    { conclusion := Conclusion.neutral
      title := "Semgrep found " ++ toString warningCount ++ " warning(s)"
      summary := "⚠️ **" ++ toString warningCount ++
        "** potential security issues found.\nℹ️ **" ++ toString infoCount ++
        "** informational findings.\n\nConsider reviewing these warnings." }
  else
    { conclusion := Conclusion.success
      title := "No security issues found"
      summary := "✅ Semgrep scan completed successfully.\nℹ️ **" ++
        toString infoCount ++ "** informational findings." }

/-- A filtered list has positive length exactly when some element
satisfies the predicate. -/
theorem filter_length_pos_iff_any {α : Type} (p : α → Bool) (l : List α) :
    0 < (l.filter p).length ↔ l.any p = true := by
  induction l with
  | nil => simp
  | cons a t ih =>
    cases h : p a <;> simp [List.filter_cons, h, ih]

/-- C1: `getCheckRunStatus` concludes `failure` when some finding has
severity ERROR; otherwise `neutral` when some finding has severity
WARNING; otherwise `success`. -/
theorem getCheckRunStatus_conclusion (findings : List SemgrepFinding) :
    (getCheckRunStatus findings).conclusion =
      if findings.any (fun f => f.extra.severity == Severity.ERROR) then
        Conclusion.failure
      else if findings.any (fun f => f.extra.severity == Severity.WARNING) then
        Conclusion.neutral
      else
        Conclusion.success := by
  unfold getCheckRunStatus
  have he := filter_length_pos_iff_any
    (fun f => f.extra.severity == Severity.ERROR) findings
  have hw := filter_length_pos_iff_any
    (fun f => f.extra.severity == Severity.WARNING) findings
  by_cases h1 :
      0 < (findings.filter
        (fun f => f.extra.severity == Severity.ERROR)).length
  · simp only [h1, if_pos, gt_iff_lt]
    rw [he.mp h1]
    simp
  · have hne : findings.any (fun f => f.extra.severity == Severity.ERROR) =
        false := by
      cases h : findings.any (fun f => f.extra.severity == Severity.ERROR)
      · rfl
      · exact absurd (he.mpr h) h1
    by_cases h2 :
        0 < (findings.filter
          (fun f => f.extra.severity == Severity.WARNING)).length
    · simp only [gt_iff_lt, h1, if_neg, h2, if_pos, hne]
      rw [hw.mp h2]
      simp
    · have hnw : findings.any
          (fun f => f.extra.severity == Severity.WARNING) = false := by
        cases h : findings.any (fun f => f.extra.severity == Severity.WARNING)
        · rfl
        · exact absurd (hw.mpr h) h2
      simp [h1, h2, hne, hnw]

/-! ## Language-tag mapping (`getLanguageFromPath`)

JavaScript string operations are embedded as explicit functions over the
character list of the string so that they compute by kernel reduction:
`split(".")`, `toLowerCase`, and `Array.prototype.pop` (the last element
of a non-empty array; `split` always returns at least one element). -/

/-- `String.prototype.split(".")` : splits on every dot, keeping empty
segments; applied to the empty string it yields `[""]`. -/
def jsSplitDotAux : List Char → List Char → List String
  | [], acc => [String.mk acc.reverse]
  | c :: cs, acc =>
    if c = '.' then String.mk acc.reverse :: jsSplitDotAux cs []
    else jsSplitDotAux cs (c :: acc)

/-- `filePath.split(".")`. -/
def jsSplitDot (s : String) : List String :=
  jsSplitDotAux s.data []

/-- `String.prototype.toLowerCase` (character-wise lowering). -/
def jsToLowerCase (s : String) : String :=
  String.mk (s.data.map Char.toLower)

/-- The `languageMap` record literal inside `getLanguageFromPath`:
extension → code-block language tag. -/
def languageMap (extension : String) : Option String :=
  match extension with
  | "js" => some ("javascript")
  | "jsx" => some ("javascript")
  | "ts" => some ("typescript")
  | "tsx" => some ("typescript")
  | "py" => some ("python")
  | "java" => some ("java")
  | "go" => some ("go")
  | "php" => some ("php")
  | "rb" => some ("ruby")
  | "cs" => some ("csharp")
  | "cpp" => some ("cpp")
  | "c" => some ("c")
  | "sh" => some ("bash")
  | "yaml" => some ("yaml")
  | "yml" => some ("yaml")
  | "json" => some ("json")
  | "xml" => some ("xml")
  | "html" => some ("html")
  | "css" => some ("css")
  | "sql" => some ("sql")
  | _ => none

/-- `SemgrepService.getLanguageFromPath`: the extension is the last
dot-separated segment of the path (`split(".").pop()`), lowered, looked up
in `languageMap`, defaulting to `"text"`. -/
def getLanguageFromPath (filePath : String) : String :=
  (languageMap (jsToLowerCase ((jsSplitDot filePath).getLastD ("")))).getD
    ("text")

/-- Every tag stored in `languageMap` is non-empty. -/
theorem languageMap_values_nonempty (e v : String)
    (h : languageMap e = some v) : v ≠ "" := by
  unfold languageMap at h
  split at h <;> simp_all
  all_goals (subst h; decide)

/-- C9: `getLanguageFromPath` is total: it returns a non-empty tag on every
input string (it is a Lean function, hence deterministic and never
failing), and whenever the extracted extension is not in the known
mapping the result is the generic tag `"text"`. -/
theorem getLanguageFromPath_total (filePath : String) :
    getLanguageFromPath filePath ≠ "" ∧
    ((languageMap (jsToLowerCase ((jsSplitDot filePath).getLastD
        ("")))).isNone →
      getLanguageFromPath filePath = "text") := by
  unfold getLanguageFromPath
  cases h : languageMap (jsToLowerCase ((jsSplitDot filePath).getLastD ("")))
  · refine ⟨?_, fun _ => ?_⟩
    · rw [Option.getD_none]
      decide
    · rw [Option.getD_none]
  · refine ⟨?_, fun hn => ?_⟩
    · rw [Option.getD_some]
      exact languageMap_values_nonempty _ _ h
    · exact absurd hn (by simp)

/-- Witness for C9 at two concrete inputs: the empty string and a path
with an unknown extension both land in the generic `"text"` tag. -/
theorem getLanguageFromPath_total_witness :
    ((languageMap (jsToLowerCase ((jsSplitDot ("")).getLastD
        ("")))).isNone ∧
      getLanguageFromPath ("") ≠ "" ∧ getLanguageFromPath ("") = "text") ∧
    getLanguageFromPath ("src/app.py") ≠ "" :=
  ⟨⟨by decide,
    (getLanguageFromPath_total ("")).1,
    (getLanguageFromPath_total ("")).2 (by decide)⟩,
   (getLanguageFromPath_total ("src/app.py")).1⟩

/-! ## Permission gate (`checkAppPermissions`) -/

/-- The `permissions` object of a GitHub installation, as read by
`checkAppPermissions`; each permission is an optional grant string. -/
structure InstallationPermissions where
  checks : Option String := none
  contents : Option String := none
  issues : Option String := none
  pull_requests : Option String := none
deriving DecidableEq, Repr

/-- The installation record returned by
`octokit.rest.apps.getRepoInstallation`; `permissions` may be absent
(`installation.permissions || {}` in the source). -/
structure Installation where
  permissions : Option InstallationPermissions := none
deriving DecidableEq, Repr

/-- The boolean permission set computed by `checkAppPermissions`. -/
structure PermissionSet where
  hasChecksWrite : Bool
  hasContentsRead : Bool
  hasIssuesWrite : Bool
  hasPullRequestsRead : Bool
deriving DecidableEq, Repr

/-- `checkAppPermissions` (src/services/github.ts): the installation query
either produces an installation record or fails; on failure the function
returns the all-false permission set from its `catch` block.  The Lean
function is total — it always returns a `PermissionSet`, mirroring that
the source never re-throws. -/
def checkAppPermissions (queryResult : Except String Installation) :
    PermissionSet :=
  match queryResult with
  | Except.ok installation =>
    let permissions := installation.permissions.getD {}
    { hasChecksWrite := permissions.checks == some ("write")
      hasContentsRead := permissions.contents == some ("read") ||
        permissions.contents == some ("write")
      hasIssuesWrite := permissions.issues == some ("write")
      hasPullRequestsRead := permissions.pull_requests == some ("read") ||
        permissions.pull_requests == some ("write") }
  | Except.error _ =>
    { hasChecksWrite := false
      hasContentsRead := false
      hasIssuesWrite := false
      hasPullRequestsRead := false }

/-- C6: when the installation-permission query fails (with any cause),
`checkAppPermissions` returns the permission set with all four flags
false; being a total Lean function it returns — it never raises — on
every input. -/
theorem checkAppPermissions_fail_closed (cause : String) :
    checkAppPermissions (Except.error cause) =
      { hasChecksWrite := false
        hasContentsRead := false
        hasIssuesWrite := false
        hasPullRequestsRead := false } :=
  rfl

/-! ## Scanner client (`scanDirectory`, `scanDirectoryForTextOutput`)

`execAsync` either resolves with the captured streams or rejects with a
JavaScript error object carrying `code`, `signal`, the partial `stdout`
captured on the failure path, and `message`.  `JSON.parse` is abstracted
by a parameter `parse : String → Option SemgrepResult` (`none` = the
string is not valid scanner JSON, i.e. `JSON.parse` throws); the output
file written through `-o` is abstracted by an `Option String` (`none` =
`fs.promises.readFile` throws).  A thrown value propagating out of a
`try` block is an `Except.error` that the corresponding `catch` block
consumes. -/

/-- A JavaScript error object as inspected by the `catch` blocks of the
scanner client.  An `execAsync` rejection carries `code`/`signal`/`stdout`;
a `JSON.parse` `SyntaxError` carries none of them. -/
structure JsError where
  code : Option String := none
  signal : Option String := none
  stdout : Option String := none
  message : String := ""
deriving DecidableEq, Repr

/-- The outcome of the `execAsync` subprocess invocation. -/
inductive ExecOutcome where
  | ok (stdout : String) (stderr : String)
  | err (e : JsError)
deriving DecidableEq, Repr

/-- `JSON.parse(s)` as an expression that may throw: a `SyntaxError` has no
`code`, `signal` or `stdout` field. -/
def jsonParseE (parse : String → Option SemgrepResult) (s : String) :
    Except JsError SemgrepResult :=
  match parse s with
  | some r => Except.ok r
  | none => Except.error { message := "Unexpected token in JSON" }

/-- The body of the `try` block of `scanDirectory` after `execAsync`
resolved: read the `-o` output file and parse it; if reading or parsing
throws, the inner `catch (fileError)` falls back to parsing `stdout`,
whose own parse failure propagates outward. -/
def scanTryBlock (parse : String → Option SemgrepResult) (stdout : String)
    (outputFileContent : Option String) : Except JsError SemgrepResult :=
  match outputFileContent with
  | some outputData =>
    match parse outputData with
    | some result => Except.ok result
    | none => jsonParseE parse stdout
  | none => jsonParseE parse stdout

/-- The scanner-not-found message thrown when `error.code === "ENOENT"`. -/
def scannerNotFoundMessage : String :=
  "Semgrep CLI not found. Please install Semgrep first."

/-- The timeout message thrown when `error.signal === "SIGTERM"`; it names
the configured limit in seconds. -/
def scanTimeoutMessage (timeout : Nat) : String :=
  "Semgrep scan timed out after " ++ toString timeout ++ " seconds."

/-- The attempt to parse the partial output attached to the rejection
(`if (error.stdout) { ... JSON.parse(error.stdout) ... }`); the JavaScript
truthiness test skips an absent or empty `stdout`. -/
def parseErrorStdout (parse : String → Option SemgrepResult) (e : JsError) :
    Option SemgrepResult :=
  match e.stdout with
  | some s => if s == "" then none else parse s
  | none => none

/-- The `catch` block of `scanDirectory` (src/services/semgrep.ts,
lines 268–311): scanner-not-found and timeout are re-thrown as dedicated
errors; otherwise the client tries the partial output attached to the
error, then the on-disk output artifact, and only when neither parses
does it throw `Semgrep scan failed: …`. -/
def scanCatchBlock (parse : String → Option SemgrepResult) (timeout : Nat)
    (error : JsError) (outputFileContent : Option String) :
    Except String SemgrepResult :=
  if error.code == some ("ENOENT") then
    Except.error scannerNotFoundMessage
  else if error.signal == some ("SIGTERM") then
    Except.error (scanTimeoutMessage timeout)
  else
    match parseErrorStdout parse error with
    | some result => Except.ok result
    | none =>
      match outputFileContent with
      | some outputData =>
        match parse outputData with
        | some result => Except.ok result
        | none => Except.error ("Semgrep scan failed: " ++ error.message)
      | none => Except.error ("Semgrep scan failed: " ++ error.message)

/-- `SemgrepService.scanDirectory`: run the subprocess; on resolution run
the try-block parse chain, and hand any error it lets escape — as well as
an outright rejection — to the `catch` block. -/
def scanDirectory (parse : String → Option SemgrepResult) (timeout : Nat)
    (exec : ExecOutcome) (outputFileContent : Option String) :
    Except String SemgrepResult :=
  match exec with
  | ExecOutcome.ok stdout _ =>
    match scanTryBlock parse stdout outputFileContent with
    | Except.ok result => Except.ok result
    | Except.error e => scanCatchBlock parse timeout e outputFileContent
  | ExecOutcome.err e => scanCatchBlock parse timeout e outputFileContent

/-- The `catch` block of `scanDirectoryForTextOutput` (lines 172–182): it
distinguishes scanner-not-found, timeout, and generic failure, with no
parse fallback. -/
def scanForTextCatchBlock (timeout : Nat) (error : JsError) :
    Except String (SemgrepResult × String) :=
  if error.code == some ("ENOENT") then
    Except.error scannerNotFoundMessage
  else if error.signal == some ("SIGTERM") then
    Except.error (scanTimeoutMessage timeout)
  else
    Except.error ("Semgrep scan failed: " ++ error.message)

/-- `SemgrepService.scanDirectoryForTextOutput`: run both commands; on
resolution read the text and JSON output files and parse the JSON; any
throw inside the `try` block lands in the `catch` block above.  A file
read is an `Except JsError String` because `readFile` rejects with an
error object of its own. -/
def scanDirectoryForTextOutput (parse : String → Option SemgrepResult)
    (timeout : Nat) (exec : ExecOutcome)
    (textFileContent jsonFileContent : Except JsError String) :
    Except String (SemgrepResult × String) :=
  match exec with
  | ExecOutcome.err e => scanForTextCatchBlock timeout e
  | ExecOutcome.ok _ _ =>
    match textFileContent with
    | Except.error fileError => scanForTextCatchBlock timeout fileError
    | Except.ok textOutput =>
      match jsonFileContent with
      | Except.error fileError => scanForTextCatchBlock timeout fileError
      | Except.ok jsonData =>
        match jsonParseE parse jsonData with
        | Except.ok jsonResult => Except.ok (jsonResult, textOutput)
        | Except.error parseError => scanForTextCatchBlock timeout parseError

/-- C3: when the subprocess rejects with a non-zero exit that is neither
scanner-not-found (`ENOENT`) nor a timeout (`SIGTERM`), `scanDirectory`
still tries to parse the produced output — first the partial output
attached to the error, then the on-disk artifact — returns the first
parse that succeeds, and raises the scan-execution error
`Semgrep scan failed: …` only when no available output parses. -/
theorem scanDirectory_nonzero_exit_recovers
    (parse : String → Option SemgrepResult) (timeout : Nat) (e : JsError)
    (outputFileContent : Option String)
    (hcode : e.code ≠ some ("ENOENT")) (hsignal : e.signal ≠ some ("SIGTERM")) :
    scanDirectory parse timeout (ExecOutcome.err e) outputFileContent =
      (match parseErrorStdout parse e with
       | some result => Except.ok result
       | none =>
         match outputFileContent.bind parse with
         | some result => Except.ok result
         | none => Except.error ("Semgrep scan failed: " ++ e.message)) ∧
    ((∃ msg, scanDirectory parse timeout (ExecOutcome.err e)
        outputFileContent = Except.error msg) ↔
      parseErrorStdout parse e = none ∧ outputFileContent.bind parse = none)
    := by
  have hc : (e.code == some ("ENOENT")) = false := by
    cases h : e.code == some ("ENOENT")
    · rfl
    · exact absurd (eq_of_beq h) hcode
  have hs : (e.signal == some ("SIGTERM")) = false := by
    cases h : e.signal == some ("SIGTERM")
    · rfl
    · exact absurd (eq_of_beq h) hsignal
  have hmain : scanDirectory parse timeout (ExecOutcome.err e)
      outputFileContent =
      (match parseErrorStdout parse e with
       | some result => Except.ok result
       | none =>
         match outputFileContent.bind parse with
         | some result => Except.ok result
         | none => Except.error ("Semgrep scan failed: " ++ e.message)) := by
    have hstep : scanDirectory parse timeout (ExecOutcome.err e)
        outputFileContent = scanCatchBlock parse timeout e outputFileContent :=
      rfl
    rw [hstep]
    unfold scanCatchBlock
    rw [hc, hs]
    simp only [Bool.false_eq_true, if_false]
    cases hp : parseErrorStdout parse e
    · cases hf : outputFileContent <;> rfl
    · rfl
  refine ⟨hmain, ?_⟩
  rw [hmain]
  constructor
  · rintro ⟨msg, hmsg⟩
    cases hp : parseErrorStdout parse e
    · cases hf : outputFileContent.bind parse
      · exact ⟨rfl, rfl⟩
      · rw [hp, hf] at hmsg
        exact absurd hmsg (by simp)
    · rw [hp] at hmsg
      exact absurd hmsg (by simp)
  · rintro ⟨hp, hf⟩
    rw [hp, hf]
    exact ⟨"Semgrep scan failed: " ++ e.message, rfl⟩

/-- A concrete parser for witnesses: accepts exactly the string `"GOOD"`,
producing an empty result set. -/
def demoParse : String → Option SemgrepResult :=
  fun s => if s == "GOOD" then some { results := [] } else none

/-- A concrete non-zero-exit rejection whose partial stdout parses. -/
def demoExitError : JsError :=
  { code := some ("EXIT1"), signal := none, stdout := some ("GOOD")
    message := "Command failed" }

/-- Witness for C3: at a concrete rejection with parseable partial stdout
and no readable artifact, the scan recovers the findings instead of
failing. -/
theorem scanDirectory_nonzero_exit_recovers_witness :
    demoExitError.code ≠ some ("ENOENT") ∧
    demoExitError.signal ≠ some ("SIGTERM") ∧
    (scanDirectory demoParse 300 (ExecOutcome.err demoExitError) none =
        Except.ok { results := [] } ∧
      ((∃ msg, scanDirectory demoParse 300 (ExecOutcome.err demoExitError)
          none = Except.error msg) ↔
        parseErrorStdout demoParse demoExitError = none ∧
          (Option.bind none demoParse = none))) := by
  refine ⟨by decide, by decide, ?_⟩
  have h := scanDirectory_nonzero_exit_recovers demoParse 300 demoExitError
    none (by decide) (by decide)
  exact ⟨by rw [h.1]; rfl, h.2⟩

/-- C7: whenever the subprocess is terminated for exceeding the timeout
budget (`signal === "SIGTERM"`, not masked by `ENOENT`), both scan entry
points fail with the timeout error — no partial result is returned, no
matter what output would have been parseable — and the error message
names the configured limit in seconds. -/
theorem scanTimeout_names_limit (parse : String → Option SemgrepResult)
    (timeout : Nat) (e : JsError) (outputFileContent : Option String)
    (textFileContent jsonFileContent : Except JsError String)
    (hcode : e.code ≠ some ("ENOENT")) (hsignal : e.signal = some ("SIGTERM")) :
    scanDirectory parse timeout (ExecOutcome.err e) outputFileContent =
      Except.error (scanTimeoutMessage timeout) ∧
    scanDirectoryForTextOutput parse timeout (ExecOutcome.err e)
        textFileContent jsonFileContent =
      Except.error (scanTimeoutMessage timeout) ∧
    (∃ pre post, scanTimeoutMessage timeout =
      pre ++ (toString timeout ++ " seconds") ++ post) := by
  have hc : (e.code == some ("ENOENT")) = false := by
    cases h : e.code == some ("ENOENT")
    · rfl
    · exact absurd (eq_of_beq h) hcode
  have hs : (e.signal == some ("SIGTERM")) = true := by
    rw [hsignal]
    rfl
  refine ⟨?_, ?_, ?_⟩
  · have hstep : scanDirectory parse timeout (ExecOutcome.err e)
        outputFileContent = scanCatchBlock parse timeout e outputFileContent :=
      rfl
    rw [hstep]
    unfold scanCatchBlock
    rw [hc, hs]
    simp
  · have hstep : scanDirectoryForTextOutput parse timeout (ExecOutcome.err e)
        textFileContent jsonFileContent = scanForTextCatchBlock timeout e :=
      rfl
    rw [hstep]
    unfold scanForTextCatchBlock
    rw [hc, hs]
    simp
  · refine ⟨"Semgrep scan timed out after ", ".", ?_⟩
    apply String.ext
    have hsec : (" seconds." : String).data = (" seconds" : String).data ++
        (("." : String).data) := by decide
    simp only [scanTimeoutMessage, String.data_append, hsec,
      List.append_assoc]
    rfl

/-- A concrete timeout rejection; its partial stdout would parse, showing
that the timeout path discards partial results. -/
def demoTimeoutError : JsError :=
  { code := none, signal := some ("SIGTERM"), stdout := some ("GOOD")
    message := "Command terminated" }

/-- Witness for C7 at the default 300-second limit: the timeout error is
raised (despite parseable partial output) and its message contains
`"300 seconds"`. -/
theorem scanTimeout_names_limit_witness :
    demoTimeoutError.code ≠ some ("ENOENT") ∧
    demoTimeoutError.signal = some ("SIGTERM") ∧
    (scanDirectory demoParse 300 (ExecOutcome.err demoTimeoutError)
        (some ("GOOD")) = Except.error (scanTimeoutMessage 300) ∧
      scanDirectoryForTextOutput demoParse 300
          (ExecOutcome.err demoTimeoutError) (Except.ok ("raw"))
          (Except.ok ("GOOD")) = Except.error (scanTimeoutMessage 300) ∧
      (∃ pre post, scanTimeoutMessage 300 =
        pre ++ (toString 300 ++ " seconds") ++ post)) :=
  ⟨by decide, by decide,
    scanTimeout_names_limit demoParse 300 demoTimeoutError (some ("GOOD"))
      (Except.ok ("raw")) (Except.ok ("GOOD")) (by decide) (by decide)⟩

/-! ## Workspace acquisition (`createTempDirectory`)

`path.join(process.cwd(), "temp", ` `semgrep-${Date.now()}` `)`: the
directory name is derived from the millisecond clock reading alone. -/

/-- `SemgrepService.createTempDirectory`, as a function of the process
working directory and the `Date.now()` reading observed by the call. -/
def createTempDirectory (cwd : String) (now : Nat) : String :=
  cwd ++ "/temp/semgrep-" ++ toString now

/-- An in-flight scan run: its identity and the `Date.now()` value it
observed when acquiring its workspace. -/
structure ScanRun where
  runId : Nat
  now : Nat
deriving DecidableEq, Repr

/-- The workspace path a run acquires. -/
def tempDirForRun (cwd : String) (r : ScanRun) : String :=
  createTempDirectory cwd r.now

/-- C8 (code evaluated at the failing input): two distinct concurrent runs
that observe the same millisecond clock reading receive the *same*
directory path — the generated name has no monotonic or random component,
only the timestamp, so it can collide across concurrent runs. -/
theorem createTempDirectory_collision :
    (({ runId := 1, now := 1700000000000 } : ScanRun) ≠
      { runId := 2, now := 1700000000000 }) ∧
    tempDirForRun ("/app") { runId := 1, now := 1700000000000 } =
      tempDirForRun ("/app") { runId := 2, now := 1700000000000 } :=
  ⟨by decide, rfl⟩

/-! ## The pull-request scan handler (src/handlers/webhooks.ts)

The handler is embedded as a function from the outcomes of its external
operations to the trace of calls it makes.  Operations whose failures the
source swallows internally (`postSemgrepResultsComment`, `createCheckRun`,
`sendToExternalService`, `cleanupTempDirectory`) cannot alter control
flow and need no outcome parameter; operations that can throw
(`octokit.rest.checks.create`, `createTempDirectory`, `cloneRepository`,
`scanDirectoryForTextOutput`, `exportToFile`) carry an
`Except String` outcome whose error is the JavaScript error message. -/

/-- One externally visible call made by the handler. -/
inductive Event where
  | createInProgressCheck
  | createTempDir
  | cloneRepo
  | runScan
  | postResultsComment
  | createCheckRunCall (conclusion : Conclusion)
      (title summary details : String)
  | sendExternal
  | exportFile
  | postErrorComment
  | cleanupTempDir
deriving DecidableEq, Repr

/-- Outcomes of the handler's fallible external operations. -/
structure RunEnv where
  initialCheck : Except String Unit
  tempDir : Except String Unit
  clone : Except String Unit
  scanOutcome : Except String (List SemgrepFinding × String)
  webhookUrl : Option String
  exportResults : Bool
  exportOutcome : Except String Unit

/-- The handler's `catch` block: a best-effort failure check run (its own
errors swallowed) followed by a best-effort error comment. -/
def errorPathEvents (msg : String) : List Event :=
  [Event.createCheckRunCall Conclusion.failure ("Semgrep scan failed")
    ("❌ Semgrep security scan encountered an error: " ++ msg)
    ("The security scan could not be completed due to an error:\n\n```\n" ++
      msg ++ "\n```"),
   Event.postErrorComment]

/-- The calls of the handler's success path after the scan produced
`results` and `textOutput`: results comment, then the terminal check run
— whose conclusion argument is the string literal `"success"` at the call
site (webhooks.ts line 76) while title and summary come from
`getCheckRunStatus` — then the optional external send. -/
def successEvents (results : List SemgrepFinding) (textOutput : String)
    (webhookUrl : Option String) : List Event :=
  [Event.createInProgressCheck, Event.createTempDir, Event.cloneRepo,
   Event.runScan, Event.postResultsComment,
   Event.createCheckRunCall Conclusion.success
     (getCheckRunStatus results).title (getCheckRunStatus results).summary
     textOutput] ++
  (match webhookUrl with
   | some _ => [Event.sendExternal]
   | none => [])

/-- The `try`/`catch` part of `handlePullRequestScan`: the trace of calls
together with whether `tempDir` was assigned (which the `finally` block
tests). -/
def handlerTryCatch (env : RunEnv) : List Event × Bool :=
  match env.initialCheck with
  | Except.error msg =>
    ([Event.createInProgressCheck] ++ errorPathEvents msg, false)
  | Except.ok _ =>
    match env.tempDir with
    | Except.error msg =>
      ([Event.createInProgressCheck, Event.createTempDir] ++
        errorPathEvents msg, false)
    | Except.ok _ =>
      match env.clone with
      | Except.error msg =>
        ([Event.createInProgressCheck, Event.createTempDir,
          Event.cloneRepo] ++ errorPathEvents msg, true)
      | Except.ok _ =>
        match env.scanOutcome with
        | Except.error msg =>
          ([Event.createInProgressCheck, Event.createTempDir,
            Event.cloneRepo, Event.runScan] ++ errorPathEvents msg, true)
        | Except.ok (results, textOutput) =>
          if env.exportResults then
            match env.exportOutcome with
            | Except.ok _ =>
              (successEvents results textOutput env.webhookUrl ++
                [Event.exportFile], true)
            | Except.error msg =>
              (successEvents results textOutput env.webhookUrl ++
                [Event.exportFile] ++ errorPathEvents msg, true)
          else
            (successEvents results textOutput env.webhookUrl, true)

/-- `handlePullRequestScan` (webhooks.ts): the `try`/`catch` trace
followed by the `finally` block, which releases the workspace exactly
when `tempDir` is non-null. -/
def handlePullRequestScan (env : RunEnv) : List Event :=
  (handlerTryCatch env).1 ++
    (if (handlerTryCatch env).2 then [Event.cleanupTempDir] else [])

/-- Number of workspace-release calls in a trace. -/
def countCleanup : List Event → Nat
  | [] => 0
  | Event.cleanupTempDir :: rest => countCleanup rest + 1
  | _ :: rest => countCleanup rest

/-- `countCleanup` distributes over concatenation. -/
theorem countCleanup_append (a b : List Event) :
    countCleanup (a ++ b) = countCleanup a + countCleanup b := by
  induction a with
  | nil => simp [countCleanup]
  | cons e rest ih =>
    cases e <;> simp [countCleanup, ih, Nat.add_right_comm]

/-- The success path makes no release call of its own. -/
theorem countCleanup_successEvents (results : List SemgrepFinding)
    (textOutput : String) (webhookUrl : Option String) :
    countCleanup (successEvents results textOutput webhookUrl) = 0 := by
  cases webhookUrl <;> rfl

/-- The `try`/`catch` part of the handler never releases the workspace:
release happens only in `finally`. -/
theorem countCleanup_tryCatch (env : RunEnv) :
    countCleanup (handlerTryCatch env).1 = 0 := by
  unfold handlerTryCatch
  rcases env with ⟨ic, td, cl, so, wu, er, eo⟩
  cases ic <;> cases td <;> cases cl <;>
    first
      | rfl
      | (rcases so with msg | ⟨results, textOutput⟩
         · rfl
         · cases er <;> cases eo <;> cases wu <;>
             simp [successEvents, countCleanup_append, countCleanup,
               errorPathEvents])

/-- C2: on every exit path of the handler in which the temporary
workspace directory was created — success, clone failure, scan timeout or
parse failure, export failure — the trace releases the workspace exactly
once, as its final call. -/
theorem cleanup_exactly_once (env : RunEnv)
    (h : (handlerTryCatch env).2 = true) :
    countCleanup (handlePullRequestScan env) = 1 ∧
    handlePullRequestScan env =
      (handlerTryCatch env).1 ++ [Event.cleanupTempDir] := by
  unfold handlePullRequestScan
  rw [h]
  refine ⟨?_, by simp⟩
  rw [countCleanup_append, countCleanup_tryCatch]
  rfl

/-- A fault-free run environment over an empty finding set. -/
def demoCleanEnv : RunEnv :=
  { initialCheck := Except.ok ()
    tempDir := Except.ok ()
    clone := Except.ok ()
    scanOutcome := Except.ok ([], "raw report")
    webhookUrl := none
    exportResults := false
    exportOutcome := Except.ok () }

/-- A run environment whose scan stage fails after the workspace was
acquired. -/
def demoScanFailEnv : RunEnv :=
  { demoCleanEnv with
    scanOutcome := Except.error (scanTimeoutMessage 300) }

/-- Witness for C2 at two concrete exit paths (success and scan timeout):
the workspace was created and is released exactly once. -/
theorem cleanup_exactly_once_witness :
    ((handlerTryCatch demoCleanEnv).2 = true ∧
      countCleanup (handlePullRequestScan demoCleanEnv) = 1) ∧
    ((handlerTryCatch demoScanFailEnv).2 = true ∧
      countCleanup (handlePullRequestScan demoScanFailEnv) = 1) :=
  ⟨⟨rfl, (cleanup_exactly_once demoCleanEnv rfl).1⟩,
   ⟨rfl, (cleanup_exactly_once demoScanFailEnv rfl).1⟩⟩

/-! ## C4: the terminal check run of webhooks.ts

The success path computes `checkStatus = getCheckRunStatus(...)` but the
`createCheckRun` call at webhooks.ts lines 71–80 passes the string
literal `"success"` as the conclusion, forwarding only the verdict's
title and summary (and the raw report as detail).  The permission-gated
variant of the same handler passes `checkStatus.conclusion`, and the spec
requires the verdict's conclusion, so the literal is a slip. -/

/-- A single ERROR-severity finding. -/
def demoErrorFinding : SemgrepFinding :=
  { check_id := "python.lang.security.audit.dangerous-exec"
    path := "app.py"
    start := { line := 12, col := 1 }
    «end» := { line := 12, col := 20 }
    extra := { message := "Detected use of exec", severity := Severity.ERROR } }

/-- A fault-free run whose scan reports one ERROR finding. -/
def demoC4Env : RunEnv :=
  { demoCleanEnv with
    scanOutcome := Except.ok ([demoErrorFinding], "raw report") }

/-- C4 (code evaluated at the failing input): with one ERROR finding the
verdict's conclusion is `failure`, yet the terminal check run the handler
publishes carries conclusion `success` (with the verdict's title and
summary and the raw report as detail) — every check-run call in the
run's trace has conclusion `success`. -/
theorem terminal_check_conclusion_hardcoded :
    (getCheckRunStatus [demoErrorFinding]).conclusion = Conclusion.failure ∧
    (Event.createCheckRunCall Conclusion.success
        (getCheckRunStatus [demoErrorFinding]).title
        (getCheckRunStatus [demoErrorFinding]).summary ("raw report"))
      ∈ handlePullRequestScan demoC4Env ∧
    ((handlePullRequestScan demoC4Env).all (fun e =>
      match e with
      | Event.createCheckRunCall c _ _ _ => c == Conclusion.success
      | _ => true)) = true := by
  refine ⟨rfl, ?_, by decide⟩
  decide

/-! ## The permission-gated pull-request scan handler

The variant of `handlePullRequestScan` that threads a `PermissionSet`
(obtained from `checkAppPermissions`) through the run: the in-progress
check, the terminal check run and the error check run are gated on
`permissions.hasChecksWrite`; the comment posts are gated on a literal
`true` at the call sites.  `checkAppPermissions` itself never throws, and
`createCheckRun` swallows its own errors and returns a boolean. -/

/-- One externally visible call made by the gated handler. -/
inductive GEvent where
  | queryPermissions
  | postWelcomeComment
  | createInProgressCheck
  | createTempDir
  | cloneRepo
  | runScan
  | postResultsComment
  | createResultsCheckRun (conclusion : Conclusion)
  | createErrorCheckRun
  | postErrorComment
  | cleanupTempDir
deriving DecidableEq, Repr

/-- Outcomes of the gated handler's fallible external operations, plus the
permission set the (infallible) gate reports for this repository. -/
structure GRunEnv where
  permissions : PermissionSet
  welcomeComment : Except String Unit
  initialCheck : Except String Unit
  tempDir : Except String Unit
  clone : Except String Unit
  scanOutcome : Except String (List SemgrepFinding)
  resultsComment : Except String Unit

/-- The gated handler's `catch` block: re-query permissions, then a
failure check run only under `hasChecksWrite`, then the error comment
(gated on a literal `true`); all inner failures are swallowed. -/
def gErrorPath (env : GRunEnv) : List GEvent :=
  [GEvent.queryPermissions] ++
  (if env.permissions.hasChecksWrite then [GEvent.createErrorCheckRun]
   else []) ++
  [GEvent.postErrorComment]

/-- The gated handler from workspace acquisition onward, with `pfx` the
calls already made: acquire, clone, scan, post the formatted results
comment (gated on a literal `true`), then the terminal check run —
carrying `checkStatus.conclusion` — only under `hasChecksWrite`. -/
def gAfterInitial (env : GRunEnv) (pfx : List GEvent) :
    List GEvent × Bool :=
  match env.tempDir with
  | Except.error _ => (pfx ++ [GEvent.createTempDir] ++ gErrorPath env, false)
  | Except.ok _ =>
    match env.clone with
    | Except.error _ =>
      (pfx ++ [GEvent.createTempDir, GEvent.cloneRepo] ++ gErrorPath env,
        true)
    | Except.ok _ =>
      match env.scanOutcome with
      | Except.error _ =>
        (pfx ++ [GEvent.createTempDir, GEvent.cloneRepo, GEvent.runScan] ++
          gErrorPath env, true)
      | Except.ok results =>
        match env.resultsComment with
        | Except.error _ =>
          (pfx ++ [GEvent.createTempDir, GEvent.cloneRepo, GEvent.runScan,
            GEvent.postResultsComment] ++ gErrorPath env, true)
        | Except.ok _ =>
          (pfx ++ [GEvent.createTempDir, GEvent.cloneRepo, GEvent.runScan,
            GEvent.postResultsComment] ++
            (if env.permissions.hasChecksWrite then
              [GEvent.createResultsCheckRun
                (getCheckRunStatus results).conclusion]
             else []), true)

/-- The `try`/`catch` part of the gated handler: query permissions, post
the welcome comment (gated on a literal `true`), then the in-progress
check only under `hasChecksWrite`, then the rest of the pipeline. -/
def gHandlerTryCatch (env : GRunEnv) : List GEvent × Bool :=
  match env.welcomeComment with
  | Except.error _ =>
    ([GEvent.queryPermissions, GEvent.postWelcomeComment] ++
      gErrorPath env, false)
  | Except.ok _ =>
    if env.permissions.hasChecksWrite then
      match env.initialCheck with
      | Except.error _ =>
        ([GEvent.queryPermissions, GEvent.postWelcomeComment,
          GEvent.createInProgressCheck] ++ gErrorPath env, false)
      | Except.ok _ =>
        gAfterInitial env [GEvent.queryPermissions,
          GEvent.postWelcomeComment, GEvent.createInProgressCheck]
    else
      gAfterInitial env [GEvent.queryPermissions, GEvent.postWelcomeComment]

/-- The gated `handlePullRequestScan`: `try`/`catch` then the `finally`
release. -/
def gHandlePullRequestScan (env : GRunEnv) : List GEvent :=
  (gHandlerTryCatch env).1 ++
    (if (gHandlerTryCatch env).2 then [GEvent.cleanupTempDir] else [])

/-- C5: with `canWriteChecks = false` and `canWriteComments = true`, no
status-check creation call of any kind is attempted on any path, and on a
run whose remaining stages succeed the results comment is still posted
and the error path is never entered (no error arises from the missing
checks permission). -/
theorem scenario_d_checks_denied (env : GRunEnv)
    (hchecks : env.permissions.hasChecksWrite = false)
    (hcomments : env.permissions.hasIssuesWrite = true) :
    (GEvent.createInProgressCheck ∉ gHandlePullRequestScan env ∧
     (∀ c, GEvent.createResultsCheckRun c ∉ gHandlePullRequestScan env) ∧
     GEvent.createErrorCheckRun ∉ gHandlePullRequestScan env) ∧
    (env.welcomeComment = Except.ok () → env.tempDir = Except.ok () →
     env.clone = Except.ok () → env.resultsComment = Except.ok () →
     ∀ results, env.scanOutcome = Except.ok results →
       GEvent.postResultsComment ∈ gHandlePullRequestScan env ∧
       GEvent.postErrorComment ∉ gHandlePullRequestScan env) := by
  rcases env with ⟨perms, wc, ic, td, cl, so, rc⟩
  simp only at hchecks
  constructor
  · rcases wc with wmsg | ⟨⟩ <;>
      rcases td with tmsg | ⟨⟩ <;>
        rcases cl with cmsg | ⟨⟩ <;>
          rcases so with smsg | results <;>
            rcases rc with rmsg | ⟨⟩ <;>
              refine ⟨?_, fun c => ?_, ?_⟩ <;>
                simp [gHandlePullRequestScan, gHandlerTryCatch,
                  gAfterInitial, gErrorPath, hchecks]
  · rintro rfl rfl rfl rfl results rfl
    constructor <;>
      simp [gHandlePullRequestScan, gHandlerTryCatch, gAfterInitial,
        gErrorPath, hchecks]

/-- A concrete environment for scenario D: checks denied, comments
granted, every remaining stage succeeds, empty finding set. -/
def demoScenarioDEnv : GRunEnv :=
  { permissions :=
      { hasChecksWrite := false
        hasContentsRead := true
        hasIssuesWrite := true
        hasPullRequestsRead := true }
    welcomeComment := Except.ok ()
    initialCheck := Except.ok ()
    tempDir := Except.ok ()
    clone := Except.ok ()
    scanOutcome := Except.ok []
    resultsComment := Except.ok () }

/-- Witness for C5 at the concrete scenario-D environment. -/
theorem scenario_d_checks_denied_witness :
    demoScenarioDEnv.permissions.hasChecksWrite = false ∧
    demoScenarioDEnv.permissions.hasIssuesWrite = true ∧
    (GEvent.createInProgressCheck ∉ gHandlePullRequestScan demoScenarioDEnv ∧
      (∀ c, GEvent.createResultsCheckRun c ∉
        gHandlePullRequestScan demoScenarioDEnv) ∧
      GEvent.createErrorCheckRun ∉ gHandlePullRequestScan demoScenarioDEnv) ∧
    (GEvent.postResultsComment ∈ gHandlePullRequestScan demoScenarioDEnv ∧
      GEvent.postErrorComment ∉ gHandlePullRequestScan demoScenarioDEnv) :=
  ⟨rfl, rfl,
    (scenario_d_checks_denied demoScenarioDEnv rfl rfl).1,
    (scenario_d_checks_denied demoScenarioDEnv rfl rfl).2 rfl rfl rfl rfl
      [] rfl⟩

/-! ## Comment formatter (`formatFindingsForComment`)

The formatter groups the findings by severity, renders one block per
finding in the order ERROR, WARNING, INFO, and truncates long messages.
`Array.prototype.join` and string-building loops are embedded as explicit
recursive functions over lists. -/

/-- `Array.prototype.join(sep)`. -/
def joinSep : List String → String → String
  | [], _ => ""
  | [x], _ => x
  | x :: y :: rest, sep => x ++ sep ++ joinSep (y :: rest) sep

/-- `String.prototype.trim`. -/
def jsTrim (s : String) : String :=
  String.mk
    (((s.data.dropWhile Char.isWhitespace).reverse.dropWhile
      Char.isWhitespace).reverse)

/-- `String.prototype.substring(0, n)` (the first `n` characters). -/
def jsSubstringTo (s : String) (n : Nat) : String :=
  String.mk (s.data.take n)

/-- The message truncation inside `formatFindingsForComment`: messages
longer than 200 characters are cut to their first 200 characters plus
`"..."`; shorter messages pass through verbatim. -/
def truncatedMessage (mainMessage : String) : String :=
  if mainMessage.length > 200 then jsSubstringTo mainMessage 200 ++ "..."
  else mainMessage

/-- The `severityEmojis` record. -/
def severityEmoji : Severity → String
  | Severity.ERROR => "🚨"
  | Severity.WARNING => "⚠️"
  | Severity.INFO => "ℹ️"

/-- The severity's name as printed in section headers. -/
def severityName : Severity → String
  | Severity.ERROR => "ERROR"
  | Severity.WARNING => "WARNING"
  | Severity.INFO => "INFO"

/-- The `riskParts` array: one entry per present risk-rating field. -/
def riskParts (m : Metadata) : List String :=
  (match m.confidence with
   | some c => ["Confidence: " ++ c]
   | none => []) ++
  (match m.impact with
   | some i => ["Impact: " ++ i]
   | none => []) ++
  (match m.likelihood with
   | some l => ["Likelihood: " ++ l]
   | none => [])

/-- The `metaParts` array: first CWE, first OWASP, the joined risk
ratings, and the documentation link (shortlink preferred over source). -/
def metaParts (m : Metadata) : List String :=
  (if m.cwe.length > 0 then ["🔗 **CWE:** " ++ m.cwe.headD ("")] else []) ++
  (if m.owasp.length > 0 then ["🛡️ **OWASP:** " ++ m.owasp.headD ("")]
   else []) ++
  (if (riskParts m).length > 0 then
    ["📊 **Risk:** " ++ joinSep (riskParts m) (", ")]
   else []) ++
  (match m.shortlink with
   | some s => ["📚 [Learn more](" ++ s ++ ")"]
   | none =>
     match m.source with
     | some src => ["📚 [Learn more](" ++ src ++ ")"]
     | none => [])

/-- The compact metadata segment of a finding's block. -/
def metaPart : Option Metadata → String
  | none => ""
  | some m =>
    if (metaParts m).length > 0 then joinSep (metaParts m) (" | ") ++ "\n\n"
    else ""

/-- The code-excerpt segment of a finding's block. -/
def codePart (f : SemgrepFinding) : String :=
  match f.lines with
  | some ls =>
    if (jsTrim ls).length > 0 then
      "**Code:**\n```" ++ getLanguageFromPath f.path ++ "\n" ++ jsTrim ls ++
        "\n```\n\n"
    else ""
  | none => ""

/-- The issue line of a finding's block, carrying the (possibly
truncated) message. -/
def issueLine (message : String) : String :=
  "💬 **Issue:** " ++ truncatedMessage message ++ "\n\n"

/-- The header of a finding's block: numbered rule id, file, line span. -/
def headerPart (idx : Nat) (f : SemgrepFinding) : String :=
  "#### " ++ toString (idx + 1) ++ ". " ++ f.check_id ++ "\n\n" ++
  "📁 **File:** `" ++ f.path ++ "`\n" ++
  "📍 **Line:** " ++ toString f.start.line ++
  (if f.«end».line ≠ f.start.line then "-" ++ toString f.«end».line
   else "") ++ "\n"

/-- The trailing segments of a finding's block. -/
def tailPart (f : SemgrepFinding) : String :=
  codePart f ++ metaPart f.extra.metadata ++ "\n---\n\n"

/-- One finding's block in the comment. -/
def findingBlock (idx : Nat) (f : SemgrepFinding) : String :=
  headerPart idx f ++ issueLine f.extra.message ++ tailPart f

/-- The per-severity `forEach` over the grouped findings, with its running
index. -/
def findingBlocksFrom (idx : Nat) : List SemgrepFinding → String
  | [] => ""
  | f :: rest => findingBlock idx f ++ findingBlocksFrom (idx + 1) rest

/-- A non-empty severity group's section: header plus the blocks. -/
def severitySectionOf (severityFindings : List SemgrepFinding)
    (severity : Severity) : String :=
  if severityFindings.length > 0 then
    "### " ++ severityEmoji severity ++ " " ++ severityName severity ++
      " (" ++ toString severityFindings.length ++ ")\n\n" ++
    findingBlocksFrom 0 severityFindings
  else ""

/-- The section of the comment for one severity: the group is the
findings of that severity, in input order. -/
def severitySection (findings : List SemgrepFinding) (severity : Severity) :
    String :=
  severitySectionOf (findings.filter
    (fun f => f.extra.severity == severity)) severity

/-- `SemgrepService.formatFindingsForComment`. -/
def formatFindingsForComment (findings : List SemgrepFinding) : String :=
  if findings.length = 0 then
    "🎉 **Semgrep Security Scan Results**\n\nNo security issues found! ✅"
  else
    "🔍 **Semgrep Security Scan Results**\n\nFound " ++
      toString findings.length ++ " potential security issue(s):\n\n" ++
    severitySection findings Severity.ERROR ++
    severitySection findings Severity.WARNING ++
    severitySection findings Severity.INFO ++
    "*This scan was performed automatically when the pull request was opened.*\n" ++
    "*Found issues? Check the [Semgrep documentation](https://semgrep.dev/docs/) for remediation guidance.*"

/-- `m` occurs as an infix (contiguous substring) of `s`. -/
def containsInfix (s m : String) : Prop :=
  ∃ pre post, s = pre ++ m ++ post

/-- Padding an infix occurrence on the right. -/
theorem containsInfix_append_right (s t m : String)
    (h : containsInfix s m) : containsInfix (s ++ t) m := by
  obtain ⟨pre, post, rfl⟩ := h
  exact ⟨pre, post ++ t, by rw [String.append_assoc]⟩

/-- Padding an infix occurrence on the left. -/
theorem containsInfix_append_left (s t m : String)
    (h : containsInfix t m) : containsInfix (s ++ t) m := by
  obtain ⟨pre, post, rfl⟩ := h
  exact ⟨s ++ pre, post, by
    rw [String.append_assoc, String.append_assoc, String.append_assoc]⟩

/-- Every finding's block contains its issue line. -/
theorem findingBlock_contains_issueLine (idx : Nat) (f : SemgrepFinding) :
    containsInfix (findingBlock idx f) (issueLine f.extra.message) :=
  ⟨headerPart idx f, tailPart f, rfl⟩

/-- The rendered blocks of a group contain the issue line of each of its
members. -/
theorem findingBlocksFrom_contains (l : List SemgrepFinding)
    (f : SemgrepFinding) (hf : f ∈ l) (idx : Nat) :
    containsInfix (findingBlocksFrom idx l) (issueLine f.extra.message) := by
  induction l generalizing idx with
  | nil => cases hf
  | cons a rest ih =>
    rcases List.mem_cons.mp hf with rfl | hmem
    · exact containsInfix_append_right _ _ _
        (findingBlock_contains_issueLine idx f)
    · exact containsInfix_append_left _ _ _ (ih hmem (idx + 1))

/-- A severity section contains the issue line of each group member. -/
theorem severitySectionOf_contains (l : List SemgrepFinding)
    (severity : Severity) (f : SemgrepFinding) (hf : f ∈ l) :
    containsInfix (severitySectionOf l severity)
      (issueLine f.extra.message) := by
  unfold severitySectionOf
  rw [if_pos (List.length_pos.mpr (List.ne_nil_of_mem hf))]
  exact containsInfix_append_left _ _ _
    (findingBlocksFrom_contains l f hf 0)

/-- C10: the comment rendered for any finding list contains, for each
finding, the issue line built from its message; that line carries exactly
the first 200 characters of the message followed by `"..."` when the
message exceeds 200 characters, and the message verbatim otherwise. -/
theorem formatFindings_truncation (findings : List SemgrepFinding)
    (f : SemgrepFinding) (hf : f ∈ findings) :
    containsInfix (formatFindingsForComment findings)
      (issueLine f.extra.message) ∧
    (f.extra.message.length > 200 →
      issueLine f.extra.message =
        "💬 **Issue:** " ++
          (String.mk (f.extra.message.data.take 200) ++ "...") ++ "\n\n") ∧
    (¬ f.extra.message.length > 200 →
      issueLine f.extra.message =
        "💬 **Issue:** " ++ f.extra.message ++ "\n\n") := by
  refine ⟨?_, ?_, ?_⟩
  · have hlen : ¬ findings.length = 0 := by
      intro h0
      rw [List.length_eq_zero] at h0
      subst h0
      cases hf
    unfold formatFindingsForComment
    rw [if_neg hlen]
    have hmem : f ∈ findings.filter
        (fun x => x.extra.severity == f.extra.severity) :=
      List.mem_filter.mpr ⟨hf, by simp⟩
    cases hsev : f.extra.severity
    · rw [hsev] at hmem
      have hsec := severitySectionOf_contains _ Severity.ERROR f hmem
      exact containsInfix_append_right _ _ _
        (containsInfix_append_right _ _ _ (containsInfix_append_right _ _ _
          (containsInfix_append_right _ _ _
            (containsInfix_append_left _ _ _ hsec))))
    · rw [hsev] at hmem
      have hsec := severitySectionOf_contains _ Severity.WARNING f hmem
      exact containsInfix_append_right _ _ _
        (containsInfix_append_right _ _ _ (containsInfix_append_right _ _ _
          (containsInfix_append_left _ _ _ hsec)))
    · rw [hsev] at hmem
      have hsec := severitySectionOf_contains _ Severity.INFO f hmem
      exact containsInfix_append_right _ _ _
        (containsInfix_append_right _ _ _
          (containsInfix_append_left _ _ _ hsec))
  · intro hlong
    unfold issueLine truncatedMessage jsSubstringTo
    rw [if_pos hlong]
  · intro hshort
    unfold issueLine truncatedMessage
    rw [if_neg hshort]

/-- A finding with a 250-character message. -/
def demoLongFinding : SemgrepFinding :=
  { check_id := "generic.long-message-rule"
    path := "main.go"
    start := { line := 3, col := 1 }
    «end» := { line := 3, col := 5 }
    extra := { message := String.mk (List.replicate 250 'a')
               severity := Severity.WARNING } }

/-- Witness for C10: in a singleton scan result whose message has 250
characters the rendered comment contains the issue line, and that line is
the first 200 characters of the message followed by `"..."`. -/
theorem formatFindings_truncation_witness :
    demoLongFinding ∈ [demoLongFinding] ∧
    demoLongFinding.extra.message.length > 200 ∧
    (containsInfix (formatFindingsForComment [demoLongFinding])
        (issueLine demoLongFinding.extra.message) ∧
      issueLine demoLongFinding.extra.message =
        "💬 **Issue:** " ++
          (String.mk (demoLongFinding.extra.message.data.take 200) ++
            "...") ++ "\n\n") := by
  have h := formatFindings_truncation [demoLongFinding] demoLongFinding
    (List.mem_singleton.mpr rfl)
  have hlong : demoLongFinding.extra.message.length > 200 := by
    show (String.mk (List.replicate 250 'a')).length > 200
    rw [String.length_mk, List.length_replicate]
    omega
  exact ⟨List.mem_singleton.mpr rfl, hlong, h.1, h.2.1 hlong⟩

end SemgrepApp
